import Mathlib

/-!
Verification of the Karakeep Markdown Importer (`importer.js`) against its
natural-language specification.

The JavaScript source is shallowly embedded: JSON values become an inductive
type, strings stay Lean `String`s (JS string primitives are re-implemented on
the underlying character list), the `fetch` call is modelled by an oracle
(`FetchInput`) describing the network outcome, and every observable side
effect (log line, network request, file read, inter-file delay) is recorded
in an explicit event trace.
-/

namespace KarakeepImporter

/-! ## JSON values (the parsed bodies returned by `response.json()`) -/

mutual

inductive JsonVal where
  | str (s : String)
  | num (n : Int)
  | bool (b : Bool)
  | null
  | obj (fields : JsonFields)
  | arr (elems : JsonArr)

inductive JsonFields where
  | nil
  | cons (key : String) (val : JsonVal) (rest : JsonFields)

inductive JsonArr where
  | nil
  | cons (val : JsonVal) (rest : JsonArr)

end

/-- Property lookup on a JS value: `v.id` is defined only on objects; on
strings, numbers, booleans, arrays and `null` it yields `undefined`
(modelled as `none`). -/
def JsonFields.find : JsonFields → String → Option JsonVal
  | .nil, _ => none
  | .cons k v rest, key => if k == key then some v else rest.find key

def getField : JsonVal → String → Option JsonVal
  | .obj fs, key => fs.find key
  | _, _ => none

/-- JS truthiness of a JSON value: `0`, `""`, `false` and `null` are falsy;
every object and array is truthy. -/
def truthy : JsonVal → Bool
  | .str s => !(s == "")
  | .num n => !(n == 0)
  | .bool b => b
  | .null => false
  | .obj _ => true
  | .arr _ => true

def isNullJson : JsonVal → Bool
  | .null => true
  | _ => false

def JsonArr.isNil : JsonArr → Bool
  | .nil => true
  | _ => false

def JsonFields.isNil : JsonFields → Bool
  | .nil => true
  | _ => false

mutual

/-- JS `String(v)` conversion: numbers print in decimal, `null` prints as
`"null"`, objects as `"[object Object]"`, arrays join their elements with
commas (with `null` elements rendered as the empty string). -/
def jsToString : JsonVal → String
  | .str s => s
  | .num n => toString n
  | .bool b => if b then "true" else "false"
  | .null => "null"
  | .obj _ => "[object Object]"
  | .arr xs => jsArrJoin xs

def jsArrJoin : JsonArr → String
  | .nil => ""
  | .cons v rest =>
    (if isNullJson v then "" else jsToString v) ++
    (if rest.isNil then "" else "," ++ jsArrJoin rest)

end

mutual

/-- JS `JSON.stringify` (escaping of special characters inside strings is not
modelled; it only feeds a diagnostic log message). -/
def jsonStringify : JsonVal → String
  | .str s => "\"" ++ s ++ "\""
  | .num n => toString n
  | .bool b => if b then "true" else "false"
  | .null => "null"
  | .obj fs => "\x7b" ++ stringifyFields fs ++ "\x7d"
  | .arr xs => "[" ++ stringifyElems xs ++ "]"

def stringifyFields : JsonFields → String
  | .nil => ""
  | .cons k v rest =>
    "\"" ++ k ++ "\":" ++ jsonStringify v ++
    (if rest.isNil then "" else "," ++ stringifyFields rest)

def stringifyElems : JsonArr → String
  | .nil => ""
  | .cons v rest =>
    jsonStringify v ++ (if rest.isNil then "" else "," ++ stringifyElems rest)

end

/-- `JSON.stringify` applied to the value returned by `fetchKarakeep`, which
is `null` when the response carried no content. -/
def jsonStringifyOpt : Option JsonVal → String
  | none => "null"
  | some j => jsonStringify j

/-! ## JS string primitives, re-implemented on the character list -/

/-- JS `s.toLowerCase()` (ASCII range, which covers the `.md` check). -/
def jsToLower (s : String) : String := ⟨s.data.map Char.toLower⟩

/-- JS `s.endsWith(suffix)`. -/
def jsEndsWith (s suffixStr : String) : Bool := suffixStr.data.isSuffixOf s.data

/-- JS `s.startsWith(p)` (used only to state properties about log lines). -/
def jsStartsWith (s p : String) : Bool := p.data.isPrefixOf s.data

/-- JS `s.substring(0, n)`. -/
def jsSubstring (s : String) (n : Nat) : String := ⟨s.data.take n⟩

/-- JS `s.trim()`. -/
def jsTrim (s : String) : String :=
  ⟨((s.data.dropWhile Char.isWhitespace).reverse.dropWhile Char.isWhitespace).reverse⟩

/-- JS replace of the regex of one trailing slash by the empty string. -/
def stripTrailingSlash (s : String) : String :=
  if jsEndsWith s "/" then ⟨s.data.dropLast⟩ else s

/-- The `.md` filter: lower-case the name, then test for the suffix ".md". -/
def jsEndsWithMd (name : String) : Bool := jsEndsWith (jsToLower name) ".md"

/-! ## Title helpers (`getFileNameWithoutExtension`, `truncateTitle`) -/

/-- A character allowed inside the extension segment of `/\.[^/.]+$/`. -/
def extChar (c : Char) : Bool := !(c == '.') && !(c == '/')

/-- Core of `fullFileName.replace(/\.[^\/.]+$/, "")`: if the name ends in a
dot followed by one or more characters none of which is `.` or `/`, remove
that final segment (dot included); otherwise leave the name unchanged. -/
def jsStripLastExt (cs : List Char) : List Char :=
  let rev := cs.reverse
  let ext := rev.takeWhile extChar
  let rest := rev.dropWhile extChar
  match rest with
  | c :: rest' => if c == '.' && !ext.isEmpty then rest'.reverse else cs
  | [] => cs

def getFileNameWithoutExtension (fullFileName : String) : String :=
  ⟨jsStripLastExt fullFileName.data⟩

def MAX_KARAKEEP_TITLE_LENGTH : Nat := 255

/-- `truncateTitle`, parameterised by the length limit so that the dead
`maxLen < 3` branch of the source can be stated as well. -/
def truncateTitleWith (maxLen : Nat) (title : String) : String :=
  if title.length > maxLen then
    if maxLen ≥ 3 then jsSubstring title (maxLen - 3) ++ "..."
    else jsSubstring title maxLen
  else title

def truncateTitle (title : String) : String :=
  truncateTitleWith MAX_KARAKEEP_TITLE_LENGTH title

/-! ## Payloads, observable events, and the network oracle -/

/-- The JSON request body built by `createRootItemInKarakeep`. -/
structure Payload where
  title : String
  text : String
  type : String
  archived : Bool
  favourited : Bool
  note : String
  summary : String
  deriving DecidableEq, Repr

/-- Observable side effects of a run: a log line (`logMessage`), an actual
network call (the `fetch(...)` invocation), a file read
(`readFileContent`), and the inter-file delay (`sleep`). -/
inductive Event where
  | log (message : String) (isError : Bool)
  | netRequest (url : String) (method : String) (body : Option Payload)
  | readAttempt (fileName : String)
  | sleep (ms : Nat)
  deriving DecidableEq, Repr

/-- The observable shape of an HTTP response: status and status text, whether
the `content-length` header is the string `'0'`, the raw body text (`none`
when reading the body itself fails), and the result of parsing the body as
JSON (`.error` when `response.json()` rejects). -/
structure HttpResponse where
  status : Nat
  statusText : String
  contentLengthZero : Bool
  bodyText : Option String
  jsonBody : Except String JsonVal

/-- Outcome of one `fetch` call decided by the environment: either the
promise rejects with a network error, or a response arrives. -/
inductive FetchInput where
  | netError (msg : String)
  | resp (r : HttpResponse)

/-- Result of `fetchKarakeep` as seen by its caller: the parsed JSON value
(`none` for a content-less success), or a thrown error. -/
inductive FetchResult where
  | ok (data : Option JsonVal)
  | threw (msg : String)

/-- `response.ok` of the Fetch API: status in the range 200–299. -/
def responseOk (status : Nat) : Bool := 200 ≤ status && status ≤ 299

/-! ## `fetchKarakeep` -/

/-- The response-handling part of the `try` block of `fetchKarakeep`: the
non-ok branch builds `errorText`, logs the response error and throws; a 204
or zero-length response returns `null`; otherwise the body is parsed as
JSON (a parse failure rejects without further logging inside the `try`). -/
def fetchRespond (url method : String) (r : HttpResponse) :
    FetchResult × List Event :=
  if !responseOk r.status then
    let errorText := "API Error: " ++ toString r.status ++ " " ++ r.statusText ++
      (match r.bodyText with
       | some t => " - " ++ jsSubstring t 200
       | none => "")
    (.threw errorText,
     [Event.log ("API Response Error: " ++ method ++ " " ++ url ++ " -> Status " ++
        toString r.status) true])
  else if r.status == 204 || r.contentLengthZero then
    (.ok none,
     [Event.log ("API Response OK: " ++ method ++ " " ++ url ++ " -> Status " ++
        toString r.status ++ " (No Content)") false])
  else
    match r.jsonBody with
    | .ok j =>
      (.ok (some j),
       [Event.log ("API Response OK: " ++ method ++ " " ++ url ++ " -> Status " ++
          toString r.status) false])
    | .error m => (.threw m, [])

/-- `fetchKarakeep(url, method, apiKey, body)`: logs the request, performs the
`fetch` call (recorded as a `netRequest` event), handles the response, and
re-throws any error after logging `Fetch Error for ...` in its `catch`. -/
def fetchKarakeep (url method apiKey : String) (body : Option Payload)
    (input : FetchInput) : FetchResult × List Event :=
  let reqLog := Event.log ("API Request: " ++ method ++ " " ++ url) false
  let fetchEv := Event.netRequest url method body
  match input with
  | .netError m =>
    (.threw m,
     [reqLog, fetchEv,
      Event.log ("Fetch Error for " ++ method ++ " " ++ url ++ ": " ++ m) true])
  | .resp r =>
    let res := fetchRespond url method r
    let catchEvs :=
      match res.1 with
      | .threw m =>
        [Event.log ("Fetch Error for " ++ method ++ " " ++ url ++ ": " ++ m) true]
      | .ok _ => []
    (res.1, [reqLog, fetchEv] ++ res.2 ++ catchEvs)

/-! ## `createRootItemInKarakeep` -/

/-- The request payload built by `createRootItemInKarakeep`. -/
def mkPayload (title textContent : String) : Payload :=
  { title := truncateTitle title
    text := textContent
    type := "text"
    archived := false
    favourited := false
    note := "Imported from Markdown file: " ++ title ++ ".md"
    summary := "" }

/-- `const newBookmarkId = createdBookmarkData?.id ? String(createdBookmarkData.id) : null`
followed by the `if (!newBookmarkId)` check: the extraction succeeds exactly
when the `id` property exists, is truthy, and its JS string conversion is
non-empty. -/
def extractId (data : Option JsonVal) : Option String :=
  match data with
  | none => none
  | some j =>
    match getField j "id" with
    | none => none
    | some v =>
      if truthy v then
        let s := jsToString v
        if s == "" then none else some s
      else none

/-- Tail of `createRootItemInKarakeep` after `fetchKarakeep` settles: the
`catch` converts a thrown error into `false`; a response without a usable
`id` logs and returns `false`; otherwise the creation is logged and `true`
is returned. -/
def createResultAndLog (title : String) (fr : FetchResult) : Bool × List Event :=
  match fr with
  | .threw m =>
    (false,
     [Event.log ("An unexpected error occurred during CREATE for \"" ++ title ++
        "\": " ++ m) true])
  | .ok d =>
    match extractId d with
    | none =>
      (false,
       [Event.log ("ERROR: Could not extract \x27id\x27 from POST /bookmarks response for \"" ++
          title ++ "\". Response: " ++ jsSubstring (jsonStringifyOpt d) 200 ++ "...") true])
    | some idStr =>
      (true,
       [Event.log ("Successfully CREATED Bookmark ID " ++ idStr ++ " for \"" ++
          title ++ "\"") false])

/-- `createRootItemInKarakeep(apiUrl, apiKey, title, textContent)`: builds the
payload, POSTs it to `{apiUrl}/bookmarks`, and reduces the outcome to a
boolean, never letting an error escape. -/
def createRootItemInKarakeep (apiUrl apiKey title textContent : String)
    (input : FetchInput) : Bool × List Event :=
  let payload := mkPayload title textContent
  let createUrl := apiUrl ++ "/bookmarks"
  let attemptLog :=
    Event.log ("Attempting CREATE: Create global bookmark for \"" ++ title ++ "\"...") false
  let fr := fetchKarakeep createUrl "POST" apiKey (some payload) input
  let tail := createResultAndLog title fr.1
  (tail.1, [attemptLog] ++ fr.2 ++ tail.2)

/-- The exact condition under which `createRootItemInKarakeep` reports
success, as a function of the network outcome alone. -/
def createSucceedsOn (input : FetchInput) : Bool :=
  match input with
  | .netError _ => false
  | .resp r =>
    if !responseOk r.status then false
    else if r.status == 204 || r.contentLengthZero then false
    else
      match r.jsonBody with
      | .ok j => (extractId (some j)).isSome
      | .error _ => false

/-! ## `startImportProcess` -/

/-- One selected file as the orchestrator sees it: its name, the outcome of
reading it (`readFileContent` resolves with the content or rejects with an
error message), and the network outcome its POST would meet. -/
structure FileEntry where
  name : String
  readResult : Except String String
  netOutcome : FetchInput

/-- Injection point for an "unexpected fatal error escaping the per-file
handling": `atFile k m` raises an error with message `m` at the start of
iteration `k` (0-based), aborting the remaining iterations. `none` is the
normal run. -/
inductive FatalSpec where
  | none
  | atFile (k : Nat) (msg : String)

def fatalAt : FatalSpec → Nat → Option String
  | .none, _ => Option.none
  | .atFile k m, idx => if k = idx then some m else Option.none

/-- The body of one iteration of the `for (const file of files)` loop, after
`filesProcessedCount++` (which the loop driver accounts for): returns the
increment to `filesSyncedSuccessfully` and the events of the iteration.
`i` is the 1-based value of `filesProcessedCount`, `total` is
`files.length`. -/
def processFile (apiUrl apiKey : String) (i total : Nat) (f : FileEntry) :
    Nat × List Event :=
  let head :=
    Event.log ("\n[" ++ toString i ++ "/" ++ toString total ++ "] Processing file: " ++
      f.name) false
  if !jsEndsWithMd f.name then
    (0, [head,
         Event.log ("Skipping file \"" ++ f.name ++
           "\" as it does not have a .md extension.") true])
  else
    match f.readResult with
    | .error msg =>
      (0, [head, Event.readAttempt f.name,
           Event.log ("Error processing file \"" ++ f.name ++ "\": " ++ msg) true,
           Event.sleep 100])
    | .ok content =>
      let itemTitle := getFileNameWithoutExtension f.name
      let cr := createRootItemInKarakeep apiUrl apiKey itemTitle content f.netOutcome
      let failEvs :=
        if cr.1 then []
        else [Event.log ("Failed to import \"" ++ f.name ++
               "\" to Karakeep. Check logs above.") true]
      ((if cr.1 then 1 else 0),
       [head, Event.readAttempt f.name,
        Event.log ("Read content of \"" ++ f.name ++ "\" (" ++
          toString content.length ++ " chars)") false] ++ cr.2 ++ failEvs ++
       [Event.sleep 100])

/-- The file loop: returns `filesProcessedCount`, `filesSyncedSuccessfully`,
the events, and the message of a fatal error if one escaped. -/
def runLoop (apiUrl apiKey : String) (total : Nat) (fatal : FatalSpec) :
    List FileEntry → Nat → Nat × Nat × List Event × Option String
  | [], _ => (0, 0, [], Option.none)
  | f :: rest, idx =>
    match fatalAt fatal idx with
    | some m => (0, 0, [], some m)
    | Option.none =>
      let step := processFile apiUrl apiKey (idx + 1) total f
      let tail := runLoop apiUrl apiKey total fatal rest (idx + 1)
      (tail.1 + 1, step.1 + tail.2.1, step.2 ++ tail.2.2.1, tail.2.2.2)

/-- Events emitted before any validation: `clearLog()` logs `Log cleared.`
and the start banner follows. -/
def preEvents : List Event :=
  [Event.log "Log cleared." false,
   Event.log "--- Starting Markdown Import Process ---" false]

/-- The advisory warning when the API URL does not end in `/api/v1`. -/
def warnEvents (apiUrl : String) : List Event :=
  if !jsEndsWith apiUrl "/api/v1" then
    [Event.log "Warning: API URL doesn\x27t end with \x27/api/v1\x27. Ensure it\x27s correct." true]
  else []

/-- The validation failure log line. -/
def validationErrorLog : Event :=
  Event.log "ERROR: Please fill in API URL, API Key, and select at least one Markdown file." true

/-- The `catch` of the outer `try`: logs the fatal error, if any. -/
def catchEvents : Option String → List Event
  | Option.none => []
  | some m =>
    [Event.log ("FATAL ERROR during import process: " ++ m) true,
     Event.log "Import process halted." true]

/-- The `finally` block: the run summary, always emitted once the run
started. -/
def summaryEvents (total processed succeeded : Nat) : List Event :=
  [Event.log "\n--- Import Run Summary ---" false,
   Event.log ("Total Markdown Files Selected: " ++ toString total) false,
   Event.log ("Files Processed Attempted: " ++ toString processed) false,
   Event.log ("Files Imported Successfully to Karakeep: " ++ toString succeeded) false,
   Event.log "--- End of Run ---" false]

/-- Result of a run of `startImportProcess`. -/
structure RunResult where
  validationFailed : Bool
  processed : Nat
  succeeded : Nat
  events : List Event

/-- `startImportProcess()`: trims the inputs, validates them (returning
before the `try` block on failure), then iterates over the files; the
summary is emitted through `finally` whether or not a fatal error aborted
the loop. -/
def startImportProcess (apiUrlRaw apiKeyRaw : String) (files : List FileEntry)
    (fatal : FatalSpec) : RunResult :=
  let apiUrl := stripTrailingSlash (jsTrim apiUrlRaw)
  let apiKey := jsTrim apiKeyRaw
  if apiUrl == "" || apiKey == "" || files.isEmpty then
    { validationFailed := true, processed := 0, succeeded := 0,
      events := preEvents ++ [validationErrorLog] }
  else
    let loop := runLoop apiUrl apiKey files.length fatal files 0
    { validationFailed := false, processed := loop.1, succeeded := loop.2.1,
      events := preEvents ++ warnEvents apiUrl ++
        [Event.log ("\n--- Processing " ++ toString files.length ++
          " Markdown file(s) ---") false] ++
        loop.2.2.1 ++ catchEvents loop.2.2.2 ++
        summaryEvents files.length loop.1 loop.2.1 }

/-! ## Predicates used to state the claims -/

/-- Recognises an actual network call in the trace. -/
def isNetRequestEv : Event → Bool
  | .netRequest _ _ _ => true
  | _ => false

/-- Recognises a file read in the trace. -/
def isReadAttemptEv : Event → Bool
  | .readAttempt _ => true
  | _ => false

/-- Recognises the read-error log line for the file called `name`. -/
def isReadErrorFor (name : String) : Event → Bool
  | .log m true => jsStartsWith m ("Error processing file \"" ++ name ++ "\":")
  | _ => false

/-! ## Basic facts about the string model -/

theorem strData_append (a b : String) : (a ++ b).data = a.data ++ b.data := rfl

theorem strLength_data (s : String) : s.length = s.data.length := rfl

theorem strLength_append (a b : String) : (a ++ b).length = a.length + b.length := by
  simp only [strLength_data, strData_append, List.length_append]

theorem strMk_data (l : List Char) : (String.mk l).data = l := rfl

theorem jsSubstring_length (s : String) (n : Nat) :
    (jsSubstring s n).length = min n s.length := by
  simp only [jsSubstring, strLength_data, strMk_data, List.length_take]

theorem isPrefixOf_self_append (l t : List Char) : l.isPrefixOf (l ++ t) = true := by
  induction l with
  | nil => simp
  | cons c cs ih => simp [List.isPrefixOf_cons₂, ih]

theorem jsEndsWith_append (a b : String) : jsEndsWith (a ++ b) b = true := by
  unfold jsEndsWith List.isSuffixOf
  rw [strData_append, List.reverse_append]
  exact isPrefixOf_self_append _ _

/-! ## C3: title truncation -/

/-- C3: for every title longer than 255 characters, `truncateTitle` returns a
string of exactly 255 characters ending with the 3-character ellipsis
marker; for a limit below 3 it hard-truncates to the limit with no
ellipsis; every title of at most 255 characters is returned unchanged; the
result length never exceeds 255. -/
theorem C3_truncateTitle_spec (title : String) :
    (title.length > 255 →
      (truncateTitle title).length = 255 ∧
      jsEndsWith (truncateTitle title) "..." = true) ∧
    (title.length ≤ 255 → truncateTitle title = title) ∧
    (truncateTitle title).length ≤ 255 ∧
    (∀ m, m < 3 → title.length > m → truncateTitleWith m title = jsSubstring title m) := by
  have hshort : ∀ h : ¬ title.length > 255, truncateTitle title = title := by
    intro h
    unfold truncateTitle truncateTitleWith MAX_KARAKEEP_TITLE_LENGTH
    rw [if_neg h]
  have hlong : ∀ h : title.length > 255,
      truncateTitle title = jsSubstring title 252 ++ "..." := by
    intro h
    unfold truncateTitle truncateTitleWith MAX_KARAKEEP_TITLE_LENGTH
    rw [if_pos h, if_pos (by omega)]
  refine ⟨?_, ?_, ?_, ?_⟩
  · intro h
    rw [hlong h]
    constructor
    · rw [strLength_append, jsSubstring_length]
      have : min 252 title.length = 252 := by omega
      rw [this, show ("..." : String).length = 3 from rfl]
    · exact jsEndsWith_append _ _
  · intro h
    exact hshort (by omega)
  · by_cases h : title.length > 255
    · rw [hlong h, strLength_append, jsSubstring_length]
      have : min 252 title.length = 252 := by omega
      rw [this, show ("..." : String).length = 3 from rfl]
    · rw [hshort h]; omega
  · intro m hm h
    unfold truncateTitleWith
    rw [if_pos h, if_neg (by omega)]

/-- C3 witness: a 256-character title is truncated to exactly 255 characters
ending in the ellipsis, and a 300-character title under limit 2 is
hard-truncated to 2 characters. -/
theorem C3_truncateTitle_spec_witness :
    (truncateTitle ⟨List.replicate 256 'a'⟩).length = 255 ∧
    jsEndsWith (truncateTitle ⟨List.replicate 256 'a'⟩) "..." = true ∧
    truncateTitleWith 2 ⟨List.replicate 300 'a'⟩ =
      jsSubstring ⟨List.replicate 300 'a'⟩ 2 := by
  have h256 : (⟨List.replicate 256 'a'⟩ : String).length > 255 := by
    rw [strLength_data, strMk_data, List.length_replicate]; omega
  have h300 : (⟨List.replicate 300 'a'⟩ : String).length > 2 := by
    rw [strLength_data, strMk_data, List.length_replicate]; omega
  exact ⟨((C3_truncateTitle_spec _).1 h256).1,
         ((C3_truncateTitle_spec _).1 h256).2,
         (C3_truncateTitle_spec _).2.2.2 2 (by omega) h300⟩

/-! ## C9: filename-to-title derivation -/

/-- C9 counterexample: the claim says the derivation removes everything after
and including the final `.`, so `"notes."` should map to `"notes"`; the
regex in the code, `/\.[^\/.]+$/` requires at least one character after the dot
and leaves `"notes."` unchanged. -/
theorem C9_counterexample :
    getFileNameWithoutExtension "notes." = "notes." ∧
    getFileNameWithoutExtension "notes." ≠ "notes" := by
  constructor
  · rfl
  · decide

/-- C9 (amended): the derivation removes the final `.` together with the
nonempty run of non-`.`, non-`/` characters following it whenever the
filename ends in such a segment; otherwise — no `.` at all, or nothing
after the final `.`, or a `/` somewhere after the final `.` — the filename
is left unchanged. In particular `"notes.md" → "notes"`,
`"a.b.md" → "a.b"`, `"noext" → "noext"`. -/
theorem C9_getFileNameWithoutExtension_amended :
    getFileNameWithoutExtension "notes.md" = "notes" ∧
    getFileNameWithoutExtension "a.b.md" = "a.b" ∧
    getFileNameWithoutExtension "noext" = "noext" ∧
    (∀ s : String, '.' ∉ s.data → getFileNameWithoutExtension s = s) ∧
    (∀ base ext : List Char, ext ≠ [] → (∀ c ∈ ext, extChar c = true) →
      getFileNameWithoutExtension ⟨base ++ '.' :: ext⟩ = ⟨base⟩) ∧
    (∀ cs : List Char, getFileNameWithoutExtension ⟨cs ++ ['.']⟩ = ⟨cs ++ ['.']⟩) ∧
    (∀ base tail : List Char, '.' ∉ tail → '/' ∈ tail →
      getFileNameWithoutExtension ⟨base ++ '.' :: tail⟩ = ⟨base ++ '.' :: tail⟩) := by
  refine ⟨rfl, rfl, rfl, ?_, ?_, ?_, ?_⟩
  · intro s hdot
    unfold getFileNameWithoutExtension jsStripLastExt
    cases hrest : s.data.reverse.dropWhile extChar with
    | nil => simp only [hrest]
    | cons c r' =>
      simp only [hrest]
      have hc_mem : c ∈ s.data := by
        have hsub : c ∈ s.data.reverse :=
          (List.dropWhile_sublist extChar).subset (hrest ▸ List.mem_cons_self c r')
        exact List.mem_reverse.mp hsub
      have hcne : (c == '.') = false := by
        cases hcd : c == '.' with
        | true => exact absurd (beq_iff_eq.mp hcd ▸ hc_mem) hdot
        | false => rfl
      rw [hcne]
      simp
  · intro base ext hne hall
    unfold getFileNameWithoutExtension jsStripLastExt
    have hrev : (base ++ '.' :: ext).reverse = ext.reverse ++ '.' :: base.reverse := by
      simp
    have hallrev : ∀ c ∈ ext.reverse, extChar c = true := by
      intro c hc; exact hall c (List.mem_reverse.mp hc)
    have hdrop : (base ++ '.' :: ext).reverse.dropWhile extChar = '.' :: base.reverse := by
      rw [hrev, List.dropWhile_append_of_pos hallrev,
        List.dropWhile_cons_of_neg (by simp [extChar])]
    have htake : (base ++ '.' :: ext).reverse.takeWhile extChar = ext.reverse := by
      rw [hrev, List.takeWhile_append_of_pos hallrev,
        List.takeWhile_cons_of_neg (by simp [extChar]), List.append_nil]
    simp only [strMk_data, hdrop, htake]
    have hext : ext.reverse.isEmpty = false := by
      cases hrx : ext.reverse with
      | nil => exact absurd (List.reverse_eq_nil_iff.mp hrx) hne
      | cons x xs => rfl
    rw [hext]
    simp
  · intro cs
    unfold getFileNameWithoutExtension jsStripLastExt
    have hrev : (cs ++ ['.']).reverse = '.' :: cs.reverse := by simp
    have hdrop : (cs ++ ['.']).reverse.dropWhile extChar = '.' :: cs.reverse := by
      rw [hrev, List.dropWhile_cons_of_neg (by simp [extChar])]
    have htake : (cs ++ ['.']).reverse.takeWhile extChar = [] := by
      rw [hrev, List.takeWhile_cons_of_neg (by simp [extChar])]
    simp only [strMk_data, hdrop, htake]
    simp
  · intro base tail hdot hslash
    unfold getFileNameWithoutExtension jsStripLastExt
    have hrev : (base ++ '.' :: tail).reverse = tail.reverse ++ '.' :: base.reverse := by
      simp
    have hne : tail.reverse.dropWhile extChar ≠ [] := by
      intro h0
      have hall := List.dropWhile_eq_nil_iff.mp h0
      have := hall '/' (List.mem_reverse.mpr hslash)
      simp [extChar] at this
    obtain ⟨d, r₁, hd⟩ : ∃ d r₁, tail.reverse.dropWhile extChar = d :: r₁ := by
      cases h0 : tail.reverse.dropWhile extChar with
      | nil => exact absurd h0 hne
      | cons d r₁ => exact ⟨d, r₁, rfl⟩
    have hdmem : d ∈ tail := by
      have : d ∈ tail.reverse :=
        (List.dropWhile_sublist extChar).subset (hd ▸ List.mem_cons_self d r₁)
      exact List.mem_reverse.mp this
    have hdne : (d == '.') = false := by
      cases hq : d == '.' with
      | true => exact absurd (beq_iff_eq.mp hq ▸ hdmem) hdot
      | false => rfl
    have hdropall : (base ++ '.' :: tail).reverse.dropWhile extChar =
        d :: (r₁ ++ '.' :: base.reverse) := by
      rw [hrev, List.dropWhile_append, hd]
      simp
    simp only [hdropall]
    rw [hdne]
    simp

/-- C9 witness: the no-dot clause applied at `"noext"`, the stripping clause
applied at `"x.md"`, and the slash clause applied at `"a.b/c"`. -/
theorem C9_getFileNameWithoutExtension_amended_witness :
    getFileNameWithoutExtension "noext" = "noext" ∧
    getFileNameWithoutExtension ⟨['x'] ++ '.' :: ['m', 'd']⟩ = ⟨['x']⟩ ∧
    getFileNameWithoutExtension ⟨['a'] ++ '.' :: ['b', '/', 'c']⟩ =
      ⟨['a'] ++ '.' :: ['b', '/', 'c']⟩ := by
  exact ⟨C9_getFileNameWithoutExtension_amended.2.2.2.1 "noext" (by decide),
         C9_getFileNameWithoutExtension_amended.2.2.2.2.1 ['x'] ['m', 'd']
           (by decide) (by decide),
         C9_getFileNameWithoutExtension_amended.2.2.2.2.2.2 ['a'] ['b', '/', 'c']
           (by decide) (by decide)⟩

/-! ## C2 / C5: the boolean result of `createRootItemInKarakeep` -/

theorem createRootItem_fst (u k t c : String) (input : FetchInput) :
    (createRootItemInKarakeep u k t c input).1 = createSucceedsOn input := by
  cases input with
  | netError m => rfl
  | resp r =>
    show (createResultAndLog t (fetchRespond (u ++ "/bookmarks") "POST" r).1).1 = _
    unfold createSucceedsOn fetchRespond
    cases h1 : responseOk r.status with
    | false => simp [h1, createResultAndLog]
    | true =>
      cases h2 : (r.status == 204 || r.contentLengthZero) with
      | true => simp [h1, h2, createResultAndLog, extractId]
      | false =>
        cases h3 : r.jsonBody with
        | ok j =>
          simp only [h1, h2, h3, Bool.not_true, Bool.false_eq_true, if_false,
            if_true, createResultAndLog]
          cases h4 : extractId (some j) with
          | none => simp [h4]
          | some idStr => simp [h4]
        | error m => simp [h1, h2, h3, createResultAndLog]

theorem extractId_isSome_iff (j : JsonVal) :
    (extractId (some j)).isSome = true ↔
      ∃ v, getField j "id" = some v ∧ truthy v = true ∧ jsToString v ≠ "" := by
  unfold extractId
  cases hf : getField j "id" with
  | none => simp [hf]
  | some v =>
    cases ht : truthy v with
    | false => simp [hf, ht]
    | true =>
      cases hs : jsToString v == "" with
      | true => simp [hf, ht, hs, beq_iff_eq.mp hs]
      | false =>
        have hne : jsToString v ≠ "" := by
          intro heq; rw [heq] at hs; simp at hs
        simp only [hf, ht, if_true, hs, Bool.false_eq_true, if_false,
          Option.isSome_some, true_iff]
        exact ⟨v, rfl, ht, hne⟩

/-- C2 counterexample: a 2xx response whose JSON body contains the numeric
`id` field `0` — which the success condition of the claim ("an `id` field
(string or number)") covers — makes `createRootItemInKarakeep` return
`false`, because the code tests the `id` with JS truthiness and `0` is
falsy. -/
theorem C2_counterexample :
    responseOk 200 = true ∧
    getField (JsonVal.obj (.cons "id" (.num 0) .nil)) "id" = some (JsonVal.num 0) ∧
    (createRootItemInKarakeep "http://h/api/v1" "key" "t" "content"
      (.resp { status := 200, statusText := "OK", contentLengthZero := false,
               bodyText := some "x",
               jsonBody := .ok (.obj (.cons "id" (.num 0) .nil)) })).1 = false := by
  exact ⟨rfl, rfl, rfl⟩

/-- C2 (amended): `createRootItemInKarakeep` returns `true` iff the HTTP
response has a 2xx status, is neither a 204 nor flagged as zero-length, its
body parses as JSON, and the parsed value has a truthy `id` property whose
JS string conversion is non-empty. In particular a 204 / zero-length
response, a falsy `id` (`0`, `""`, `false`, `null`), a missing `id`, and a
truthy `id` whose string form is empty (such as `[""]`) all yield `false`,
while any other truthy `id` — not only strings and numbers — yields
`true`. -/
theorem C2_createRootItem_success_iff (u k t c : String) (input : FetchInput) :
    (createRootItemInKarakeep u k t c input).1 = true ↔
      ∃ r : HttpResponse, input = .resp r ∧ responseOk r.status = true ∧
        (r.status == 204 || r.contentLengthZero) = false ∧
        ∃ j v, r.jsonBody = .ok j ∧ getField j "id" = some v ∧
          truthy v = true ∧ jsToString v ≠ "" := by
  rw [createRootItem_fst]
  cases input with
  | netError m => simp [createSucceedsOn]
  | resp r =>
    cases h1 : responseOk r.status with
    | false =>
      have hL : createSucceedsOn (.resp r) = false := by
        unfold createSucceedsOn; simp [h1]
      rw [hL]
      constructor
      · intro h; exact absurd h (by simp)
      · rintro ⟨r', hr', hh1, _⟩
        cases hr'
        rw [h1] at hh1
        exact absurd hh1 (by simp)
    | true =>
      cases h2 : (r.status == 204 || r.contentLengthZero) with
      | true =>
        have hL : createSucceedsOn (.resp r) = false := by
          unfold createSucceedsOn; simp [h1, h2]
        rw [hL]
        constructor
        · intro h; exact absurd h (by simp)
        · rintro ⟨r', hr', _, hh2, _⟩
          cases hr'
          rw [h2] at hh2
          exact absurd hh2 (by simp)
      | false =>
        cases h3 : r.jsonBody with
        | ok j =>
          have hL : createSucceedsOn (.resp r) = (extractId (some j)).isSome := by
            unfold createSucceedsOn; simp [h1, h2, h3]
          rw [hL, extractId_isSome_iff]
          constructor
          · rintro ⟨v, hv1, hv2, hv3⟩
            exact ⟨r, rfl, h1, h2, j, v, h3, hv1, hv2, hv3⟩
          · rintro ⟨r', hr', _, _, j', v, hj', hv1, hv2, hv3⟩
            cases hr'
            rw [h3] at hj'
            cases hj'
            exact ⟨v, hv1, hv2, hv3⟩
        | error m =>
          have hL : createSucceedsOn (.resp r) = false := by
            unfold createSucceedsOn; simp [h1, h2, h3]
          rw [hL]
          constructor
          · intro h; exact absurd h (by simp)
          · rintro ⟨r', hr', _, _, j', v, hj', _⟩
            cases hr'
            rw [h3] at hj'
            exact absurd hj' (by simp)

/-- C5: `createRootItemInKarakeep` reduces every failure of the HTTP exchange
to the boolean `false` instead of propagating it: a network error, a
non-2xx status, a JSON parse failure of the body, and a response without an
`id` property each make it return `false` (its return type is `Bool`; in
the source all these paths are caught by its `try/catch`). -/
theorem C5_createRootItem_never_throws (u k t c : String) :
    (∀ m, (createRootItemInKarakeep u k t c (.netError m)).1 = false) ∧
    (∀ r : HttpResponse, responseOk r.status = false →
      (createRootItemInKarakeep u k t c (.resp r)).1 = false) ∧
    (∀ r : HttpResponse, ∀ m, r.jsonBody = .error m →
      (createRootItemInKarakeep u k t c (.resp r)).1 = false) ∧
    (∀ r : HttpResponse, ∀ j, r.jsonBody = .ok j → getField j "id" = none →
      (createRootItemInKarakeep u k t c (.resp r)).1 = false) := by
  refine ⟨fun m => rfl, ?_, ?_, ?_⟩
  · intro r h
    rw [createRootItem_fst]
    unfold createSucceedsOn
    simp [h]
  · intro r m h
    rw [createRootItem_fst]
    unfold createSucceedsOn
    cases h1 : responseOk r.status <;>
      cases h2 : (r.status == 204 || r.contentLengthZero) <;> simp [h1, h2, h]
  · intro r j hj hid
    rw [createRootItem_fst]
    unfold createSucceedsOn
    cases h1 : responseOk r.status <;>
      cases h2 : (r.status == 204 || r.contentLengthZero) <;>
        simp [h1, h2, hj, extractId, hid]

/-- C5 witness: a network error, an HTTP 500 response, a malformed JSON body
and a body without `id` each produce the result `false` at concrete
inputs. -/
theorem C5_createRootItem_never_throws_witness :
    (createRootItemInKarakeep "u" "k" "t" "c" (.netError "connection refused")).1 = false ∧
    (createRootItemInKarakeep "u" "k" "t" "c"
      (.resp { status := 500, statusText := "Internal Server Error",
               contentLengthZero := false, bodyText := some "Internal error",
               jsonBody := .error "unexpected token" })).1 = false ∧
    (createRootItemInKarakeep "u" "k" "t" "c"
      (.resp { status := 201, statusText := "Created", contentLengthZero := false,
               bodyText := some "x", jsonBody := .error "unexpected token" })).1 = false ∧
    (createRootItemInKarakeep "u" "k" "t" "c"
      (.resp { status := 201, statusText := "Created", contentLengthZero := false,
               bodyText := some "x",
               jsonBody := .ok (.obj (.cons "name" (.str "n") .nil)) })).1 = false := by
  refine ⟨(C5_createRootItem_never_throws "u" "k" "t" "c").1 "connection refused",
    (C5_createRootItem_never_throws "u" "k" "t" "c").2.1 _ (by decide),
    (C5_createRootItem_never_throws "u" "k" "t" "c").2.2.1 _ "unexpected token" rfl,
    (C5_createRootItem_never_throws "u" "k" "t" "c").2.2.2 _ _ rfl rfl⟩

/-! ## Orchestrator-level helper lemmas -/

theorem validation_cond_false {uR kR : String} {files : List FileEntry}
    (hu : stripTrailingSlash (jsTrim uR) ≠ "") (hk : jsTrim kR ≠ "")
    (hf : files ≠ []) :
    (stripTrailingSlash (jsTrim uR) == "" || jsTrim kR == "" || files.isEmpty) = false := by
  have h1 : (stripTrailingSlash (jsTrim uR) == "") = false := beq_eq_false_iff_ne.mpr hu
  have h2 : (jsTrim kR == "") = false := beq_eq_false_iff_ne.mpr hk
  have h3 : files.isEmpty = false := by
    cases files with
    | nil => exact absurd rfl hf
    | cons a l => rfl
  rw [h1, h2, h3]
  rfl

theorem startImport_validation_eq {uR kR : String} {files : List FileEntry}
    (fatal : FatalSpec)
    (h : (stripTrailingSlash (jsTrim uR) == "" || jsTrim kR == "" || files.isEmpty) = true) :
    startImportProcess uR kR files fatal =
      { validationFailed := true, processed := 0, succeeded := 0,
        events := preEvents ++ [validationErrorLog] } := by
  simp only [startImportProcess]
  rw [h]
  rfl

theorem startImport_valid_eq {uR kR : String} {files : List FileEntry}
    (fatal : FatalSpec)
    (h : (stripTrailingSlash (jsTrim uR) == "" || jsTrim kR == "" || files.isEmpty) = false) :
    startImportProcess uR kR files fatal =
      { validationFailed := false,
        processed :=
          (runLoop (stripTrailingSlash (jsTrim uR)) (jsTrim kR) files.length fatal files 0).1,
        succeeded :=
          (runLoop (stripTrailingSlash (jsTrim uR)) (jsTrim kR) files.length fatal files 0).2.1,
        events := preEvents ++ warnEvents (stripTrailingSlash (jsTrim uR)) ++
          [Event.log ("\n--- Processing " ++ toString files.length ++
            " Markdown file(s) ---") false] ++
          (runLoop (stripTrailingSlash (jsTrim uR)) (jsTrim kR) files.length fatal files 0).2.2.1 ++
          catchEvents
            (runLoop (stripTrailingSlash (jsTrim uR)) (jsTrim kR) files.length fatal files 0).2.2.2 ++
          summaryEvents files.length
            (runLoop (stripTrailingSlash (jsTrim uR)) (jsTrim kR) files.length fatal files 0).1
            (runLoop (stripTrailingSlash (jsTrim uR)) (jsTrim kR) files.length fatal files 0).2.1 } := by
  simp only [startImportProcess]
  rw [h]
  rfl

theorem runLoop_none_processed (u k : String) (total : Nat) (files : List FileEntry) :
    ∀ idx, (runLoop u k total .none files idx).1 = files.length := by
  induction files with
  | nil => intro idx; rfl
  | cons f rest ih =>
    intro idx
    show (runLoop u k total .none rest (idx + 1)).1 + 1 = rest.length + 1
    rw [ih]

theorem runLoop_none_err (u k : String) (total : Nat) (files : List FileEntry) :
    ∀ idx, (runLoop u k total .none files idx).2.2.2 = Option.none := by
  induction files with
  | nil => intro idx; rfl
  | cons f rest ih =>
    intro idx
    show (runLoop u k total .none rest (idx + 1)).2.2.2 = Option.none
    exact ih _

theorem processFile_skip_eq (u k : String) (i total : Nat) (f : FileEntry)
    (hmd : jsEndsWithMd f.name = false) :
    processFile u k i total f =
      (0, [Event.log ("\n[" ++ toString i ++ "/" ++ toString total ++
             "] Processing file: " ++ f.name) false,
           Event.log ("Skipping file \"" ++ f.name ++
             "\" as it does not have a .md extension.") true]) := by
  unfold processFile
  rw [hmd]
  rfl

/-! ## C1: non-`.md` files -/

/-- C1 counterexample: with valid credentials and a single selected file
named `notes.txt`, the run issues no network call, yet the processed
counter ends at 1, not 0 — `filesProcessedCount` is incremented before the
extension check, so the skipped file is not excluded from the processed
count as the claim states. -/
theorem C1_counterexample :
    jsEndsWithMd "notes.txt" = false ∧
    List.countP isNetRequestEv
      (startImportProcess "http://h/api/v1" "key"
        [⟨"notes.txt", .ok "hi", .netError "unused"⟩] .none).events = 0 ∧
    (startImportProcess "http://h/api/v1" "key"
      [⟨"notes.txt", .ok "hi", .netError "unused"⟩] .none).processed = 1 := by
  refine ⟨rfl, ?_, ?_⟩ <;> rfl

/-- C1 (amended): a file whose name does not end in `.md` (case-insensitive)
is skipped with a logged warning; its loop iteration contributes nothing to
the succeeded count and emits no network call and no file read. It is,
however, counted by the processed counter, which is incremented before the
extension check: in a run that passes validation and meets no fatal error,
the processed count equals the number of selected files, skipped ones
included. -/
theorem C1_nonmd_skipped_amended :
    (∀ (u k : String) (i total : Nat) (f : FileEntry),
      jsEndsWithMd f.name = false →
      processFile u k i total f =
        (0, [Event.log ("\n[" ++ toString i ++ "/" ++ toString total ++
               "] Processing file: " ++ f.name) false,
             Event.log ("Skipping file \"" ++ f.name ++
               "\" as it does not have a .md extension.") true])) ∧
    (∀ (uR kR : String) (files : List FileEntry),
      stripTrailingSlash (jsTrim uR) ≠ "" → jsTrim kR ≠ "" → files ≠ [] →
      (startImportProcess uR kR files .none).processed = files.length) := by
  constructor
  · exact processFile_skip_eq
  · intro uR kR files hu hk hf
    rw [startImport_valid_eq .none (validation_cond_false hu hk hf)]
    exact runLoop_none_processed _ _ _ _ _

/-- C1 witness: the skip equation applied to a concrete `.txt` file, and the
processed count of a concrete valid two-file run (one `.md`, one skipped
`.txt`) equal to 2. -/
theorem C1_nonmd_skipped_amended_witness :
    processFile "http://h/api/v1" "key" 1 1 ⟨"a.txt", .ok "x", .netError "unused"⟩ =
      (0, [Event.log "\n[1/1] Processing file: a.txt" false,
           Event.log "Skipping file \"a.txt\" as it does not have a .md extension." true]) ∧
    (startImportProcess "http://h/api/v1" "key"
      [⟨"b.md", .ok "x", .netError "conn"⟩, ⟨"a.txt", .ok "x", .netError "unused"⟩]
      .none).processed = 2 := by
  constructor
  · have h := C1_nonmd_skipped_amended.1 "http://h/api/v1" "key" 1 1
      ⟨"a.txt", .ok "x", .netError "unused"⟩ rfl
    rw [h]
    rfl
  · exact C1_nonmd_skipped_amended.2 "http://h/api/v1" "key" _
      (by decide) (by decide) (by simp)

/-! ## C7: validation failures -/

/-- C7: if the API base URL is empty, or the API key is empty, or the file
list is empty, the run stops at validation: a validation error is logged,
no file read and no network call happens, and both counters stay at 0. -/
theorem C7_validation_stops_run (uR kR : String) (files : List FileEntry)
    (fatal : FatalSpec) (h : uR = "" ∨ kR = "" ∨ files = []) :
    (startImportProcess uR kR files fatal).processed = 0 ∧
    (startImportProcess uR kR files fatal).succeeded = 0 ∧
    List.countP isNetRequestEv (startImportProcess uR kR files fatal).events = 0 ∧
    List.countP isReadAttemptEv (startImportProcess uR kR files fatal).events = 0 ∧
    validationErrorLog ∈ (startImportProcess uR kR files fatal).events := by
  have hcond :
      (stripTrailingSlash (jsTrim uR) == "" || jsTrim kR == "" || files.isEmpty) = true := by
    rcases h with h | h | h
    · subst h; rfl
    · subst h
      simp [show (jsTrim "" == "") = true from rfl]
    · subst h
      simp [show (List.isEmpty ([] : List FileEntry)) = true from rfl]
  rw [startImport_validation_eq fatal hcond]
  refine ⟨rfl, rfl, rfl, rfl, ?_⟩
  simp [preEvents]

/-- C7 witness: the conclusion at the concrete input of an empty URL. -/
theorem C7_validation_stops_run_witness :
    (startImportProcess "" "key" [⟨"a.md", .ok "x", .netError "unused"⟩] .none).processed = 0 ∧
    (startImportProcess "" "key" [⟨"a.md", .ok "x", .netError "unused"⟩] .none).succeeded = 0 ∧
    List.countP isNetRequestEv
      (startImportProcess "" "key" [⟨"a.md", .ok "x", .netError "unused"⟩] .none).events = 0 ∧
    List.countP isReadAttemptEv
      (startImportProcess "" "key" [⟨"a.md", .ok "x", .netError "unused"⟩] .none).events = 0 ∧
    validationErrorLog ∈
      (startImportProcess "" "key" [⟨"a.md", .ok "x", .netError "unused"⟩] .none).events :=
  C7_validation_stops_run "" "key" [⟨"a.md", .ok "x", .netError "unused"⟩] .none (Or.inl rfl)

/-! ## C8: the summary always runs once the run starts -/

/-- C8: for every run that passes validation — whatever the per-file outcomes
and even when a fatal error aborts the loop — the emitted event trace ends
with the summary block reporting the total selected, processed
("attempted") and succeeded counts. -/
theorem C8_summary_always_emitted (uR kR : String) (files : List FileEntry)
    (fatal : FatalSpec) (hu : stripTrailingSlash (jsTrim uR) ≠ "")
    (hk : jsTrim kR ≠ "") (hf : files ≠ []) :
    ∃ evs, (startImportProcess uR kR files fatal).events =
      evs ++ summaryEvents files.length
        (startImportProcess uR kR files fatal).processed
        (startImportProcess uR kR files fatal).succeeded := by
  rw [startImport_valid_eq fatal (validation_cond_false hu hk hf)]
  exact ⟨_, rfl⟩

/-- C8 witness: a concrete run aborted by a fatal error before its only file
still ends with the summary block (total 1, processed 0, succeeded 0). -/
theorem C8_summary_always_emitted_witness :
    ∃ evs, (startImportProcess "http://h/api/v1" "key"
        [⟨"a.md", .ok "x", .netError "conn"⟩] (.atFile 0 "boom")).events =
      evs ++ summaryEvents 1
        (startImportProcess "http://h/api/v1" "key"
          [⟨"a.md", .ok "x", .netError "conn"⟩] (.atFile 0 "boom")).processed
        (startImportProcess "http://h/api/v1" "key"
          [⟨"a.md", .ok "x", .netError "conn"⟩] (.atFile 0 "boom")).succeeded :=
  C8_summary_always_emitted "http://h/api/v1" "key"
    [⟨"a.md", .ok "x", .netError "conn"⟩] (.atFile 0 "boom")
    (by decide) (by decide) (by simp)

/-! ## Provenance of network-request events -/

theorem fetchRespond_no_netreq (url m : String) (r : HttpResponse) :
    ∀ e ∈ (fetchRespond url m r).2, isNetRequestEv e = false := by
  intro e he
  unfold fetchRespond at he
  split at he
  · simp at he; subst he; rfl
  · split at he
    · simp at he; subst he; rfl
    · split at he
      · simp at he; subst he; rfl
      · simp at he

theorem createResultAndLog_no_netreq (t : String) (fr : FetchResult) :
    ∀ e ∈ (createResultAndLog t fr).2, isNetRequestEv e = false := by
  intro e he
  unfold createResultAndLog at he
  split at he
  · simp at he; subst he; rfl
  · split at he
    · simp at he; subst he; rfl
    · simp at he; subst he; rfl

theorem fetch_netreq_eq (url m k : String) (b : Option Payload) (input : FetchInput) :
    ∀ e ∈ (fetchKarakeep url m k b input).2, isNetRequestEv e = true →
      e = Event.netRequest url m b := by
  intro e he ht
  cases input with
  | netError msg =>
    simp only [fetchKarakeep, List.mem_cons, List.not_mem_nil, or_false] at he
    rcases he with rfl | rfl | rfl
    · exact absurd ht (by simp [isNetRequestEv])
    · rfl
    · exact absurd ht (by simp [isNetRequestEv])
  | resp r =>
    simp only [fetchKarakeep, List.cons_append, List.nil_append, List.mem_cons,
      List.mem_append] at he
    rcases he with rfl | rfl | he | he
    · exact absurd ht (by simp [isNetRequestEv])
    · rfl
    · rw [fetchRespond_no_netreq url m r e he] at ht
      exact absurd ht (by simp)
    · revert he
      split
      · intro he; simp at he; subst he; exact absurd ht (by simp [isNetRequestEv])
      · intro he; simp at he

theorem create_netreq_eq (u k t c : String) (input : FetchInput) :
    ∀ e ∈ (createRootItemInKarakeep u k t c input).2, isNetRequestEv e = true →
      e = Event.netRequest (u ++ "/bookmarks") "POST" (some (mkPayload t c)) := by
  intro e he ht
  simp only [createRootItemInKarakeep, List.cons_append, List.nil_append,
    List.mem_cons, List.mem_append] at he
  rcases he with rfl | he | he
  · exact absurd ht (by simp [isNetRequestEv])
  · exact fetch_netreq_eq _ _ _ _ _ e he ht
  · rw [createResultAndLog_no_netreq _ _ e he] at ht
    exact absurd ht (by simp)

theorem processFile_netreq (u k : String) (i N : Nat) (f : FileEntry) :
    ∀ e ∈ (processFile u k i N f).2, isNetRequestEv e = true →
      jsEndsWithMd f.name = true ∧ ∃ cc, f.readResult = .ok cc ∧
        e = Event.netRequest (u ++ "/bookmarks") "POST"
              (some (mkPayload (getFileNameWithoutExtension f.name) cc)) := by
  intro e he ht
  cases hmd : jsEndsWithMd f.name with
  | false =>
    rw [processFile_skip_eq u k i N f hmd] at he
    simp only [List.mem_cons, List.not_mem_nil, or_false] at he
    rcases he with rfl | rfl <;> exact absurd ht (by simp [isNetRequestEv])
  | true =>
    refine ⟨rfl, ?_⟩
    unfold processFile at he
    rw [hmd] at he
    simp only [Bool.not_true, Bool.false_eq_true, if_false] at he
    cases hr : f.readResult with
    | error msg =>
      rw [hr] at he
      simp only [List.mem_cons, List.not_mem_nil, or_false] at he
      rcases he with rfl | rfl | rfl | rfl <;> exact absurd ht (by simp [isNetRequestEv])
    | ok cc =>
      rw [hr] at he
      refine ⟨cc, rfl, ?_⟩
      simp only [List.cons_append, List.nil_append, List.mem_cons, List.mem_append] at he
      rcases he with rfl | rfl | rfl | (he | he) | (rfl | he)
      · exact absurd ht (by simp [isNetRequestEv])
      · exact absurd ht (by simp [isNetRequestEv])
      · exact absurd ht (by simp [isNetRequestEv])
      · exact create_netreq_eq _ _ _ _ _ e he ht
      · revert he
        split
        · intro he; simp at he
        · intro he
          simp only [List.mem_cons, List.not_mem_nil, or_false] at he
          subst he; exact absurd ht (by simp [isNetRequestEv])
      · exact absurd ht (by simp [isNetRequestEv])
      · simp at he

theorem runLoop_netreq (u k : String) (total : Nat) (fatal : FatalSpec) :
    ∀ (files : List FileEntry) (idx : Nat) (e : Event),
      e ∈ (runLoop u k total fatal files idx).2.2.1 → isNetRequestEv e = true →
      ∃ f ∈ files, jsEndsWithMd f.name = true ∧ ∃ cc, f.readResult = .ok cc ∧
        e = Event.netRequest (u ++ "/bookmarks") "POST"
              (some (mkPayload (getFileNameWithoutExtension f.name) cc)) := by
  intro files
  induction files with
  | nil => intro idx e he; simp [runLoop] at he
  | cons f rest ih =>
    intro idx e he ht
    unfold runLoop at he
    revert he
    split
    · intro he; simp at he
    · intro he
      simp only [List.mem_append] at he
      rcases he with he | he
      · obtain ⟨hmd, cc, hr, heq⟩ := processFile_netreq u k (idx + 1) total f e he ht
        exact ⟨f, List.mem_cons_self f rest, hmd, cc, hr, heq⟩
      · obtain ⟨f', hf', rest'⟩ := ih (idx + 1) e he ht
        exact ⟨f', List.mem_cons_of_mem f hf', rest'⟩

theorem summaryEvents_no_netreq (total p s : Nat) :
    ∀ e ∈ summaryEvents total p s, isNetRequestEv e = false := by
  intro e he
  simp only [summaryEvents, List.mem_cons, List.not_mem_nil, or_false] at he
  rcases he with rfl | rfl | rfl | rfl | rfl <;> rfl

theorem warnEvents_no_netreq (u : String) :
    ∀ e ∈ warnEvents u, isNetRequestEv e = false := by
  intro e he
  unfold warnEvents at he
  split at he
  · simp at he; subst he; rfl
  · simp at he

theorem catchEvents_no_netreq (o : Option String) :
    ∀ e ∈ catchEvents o, isNetRequestEv e = false := by
  intro e he
  cases o with
  | none => simp [catchEvents] at he
  | some m =>
    simp only [catchEvents, List.mem_cons, List.not_mem_nil, or_false] at he
    rcases he with rfl | rfl <;> rfl

/-! ## C4: the payload of every issued POST -/

/-- C4: every network request a run issues is a POST to
`{apiBaseUrl}/bookmarks` whose JSON body has exactly the fields
`title` (the truncated derived title), `text` (the full file content),
`type = "text"`, `archived = false`, `favourited = false`,
`summary = ""`, and `note` the fixed string referencing the name of the file
(the derived title with `.md` re-appended). -/
theorem C4_payload_exact_fields (uR kR : String) (files : List FileEntry)
    (fatal : FatalSpec) (url m : String) (p : Option Payload)
    (hmem : Event.netRequest url m p ∈ (startImportProcess uR kR files fatal).events) :
    ∃ f ∈ files, ∃ cc, jsEndsWithMd f.name = true ∧ f.readResult = .ok cc ∧
      url = stripTrailingSlash (jsTrim uR) ++ "/bookmarks" ∧ m = "POST" ∧
      p = some
        { title := truncateTitle (getFileNameWithoutExtension f.name)
          text := cc
          type := "text"
          archived := false
          favourited := false
          note := "Imported from Markdown file: " ++
            getFileNameWithoutExtension f.name ++ ".md"
          summary := "" } := by
  have ht : isNetRequestEv (Event.netRequest url m p) = true := rfl
  cases hcond : (stripTrailingSlash (jsTrim uR) == "" || jsTrim kR == "" || files.isEmpty) with
  | true =>
    rw [startImport_validation_eq fatal hcond] at hmem
    simp only [preEvents, validationErrorLog, List.cons_append, List.nil_append,
      List.mem_cons, List.not_mem_nil, or_false] at hmem
    rcases hmem with h | h | h <;> exact absurd h (by simp)
  | false =>
    rw [startImport_valid_eq fatal hcond] at hmem
    simp only [List.mem_append] at hmem
    rcases hmem with ((((hmem | hmem) | hmem) | hmem) | hmem) | hmem
    · simp only [preEvents, List.mem_cons, List.not_mem_nil, or_false] at hmem
      rcases hmem with h | h <;> exact absurd h (by simp)
    · have := warnEvents_no_netreq _ _ hmem
      rw [ht] at this
      exact absurd this (by simp)
    · simp only [List.mem_cons, List.not_mem_nil, or_false] at hmem
      exact absurd hmem (by simp)
    · obtain ⟨f, hf, hmd, cc, hr, heq⟩ :=
        runLoop_netreq _ _ files.length fatal files 0 _ hmem ht
      injection heq with h1 h2 h3
      exact ⟨f, hf, cc, hmd, hr, h1, h2, by rw [h3]; rfl⟩
    · have := catchEvents_no_netreq _ _ hmem
      rw [ht] at this
      exact absurd this (by simp)
    · have := summaryEvents_no_netreq _ _ _ _ hmem
      rw [ht] at this
      exact absurd this (by simp)

/-- C4 witness: in a concrete one-file run the single network request is the
POST with exactly the claimed fields. -/
theorem C4_payload_exact_fields_witness :
    ∃ f ∈ [(⟨"Notes.md", .ok "Body text", .netError "conn"⟩ : FileEntry)],
      ∃ cc, jsEndsWithMd f.name = true ∧ f.readResult = .ok cc ∧
      "http://h/api/v1/bookmarks" = stripTrailingSlash (jsTrim "http://h/api/v1") ++ "/bookmarks" ∧
      "POST" = "POST" ∧
      (some
        { title := "Notes"
          text := "Body text"
          type := "text"
          archived := false
          favourited := false
          note := "Imported from Markdown file: Notes.md"
          summary := "" } : Option Payload) = some
        { title := truncateTitle (getFileNameWithoutExtension f.name)
          text := cc
          type := "text"
          archived := false
          favourited := false
          note := "Imported from Markdown file: " ++
            getFileNameWithoutExtension f.name ++ ".md"
          summary := "" } := by
  obtain ⟨f, hf, cc, h1, h2, h3, h4, h5⟩ :=
    C4_payload_exact_fields "http://h/api/v1" "key"
      [⟨"Notes.md", .ok "Body text", .netError "conn"⟩] .none
      "http://h/api/v1/bookmarks" "POST"
      (some
        { title := "Notes"
          text := "Body text"
          type := "text"
          archived := false
          favourited := false
          note := "Imported from Markdown file: Notes.md"
          summary := "" })
      (by decide)
  exact ⟨f, hf, cc, h1, h2, h3, h4, h5⟩

/-! ## C10: a file named exactly `.md` -/

theorem netreq_mem_fetch (url m k : String) (b : Option Payload) (input : FetchInput) :
    Event.netRequest url m b ∈ (fetchKarakeep url m k b input).2 := by
  cases input with
  | netError msg => simp [fetchKarakeep]
  | resp r => simp [fetchKarakeep]

theorem netreq_mem_create (u k t c : String) (input : FetchInput) :
    Event.netRequest (u ++ "/bookmarks") "POST" (some (mkPayload t c)) ∈
      (createRootItemInKarakeep u k t c input).2 := by
  simp only [createRootItemInKarakeep, List.cons_append, List.nil_append,
    List.mem_cons, List.mem_append]
  exact Or.inr (Or.inl (netreq_mem_fetch _ _ _ _ _))

theorem netreq_mem_processFile (u k : String) (i N : Nat) (f : FileEntry) (cc : String)
    (hmd : jsEndsWithMd f.name = true) (hr : f.readResult = .ok cc) :
    Event.netRequest (u ++ "/bookmarks") "POST"
      (some (mkPayload (getFileNameWithoutExtension f.name) cc)) ∈
      (processFile u k i N f).2 := by
  unfold processFile
  rw [hmd, hr]
  simp only [Bool.not_true, Bool.false_eq_true, if_false, List.cons_append,
    List.nil_append, List.mem_cons, List.mem_append]
  exact Or.inr (Or.inr (Or.inr (Or.inl (Or.inl (netreq_mem_create _ _ _ _ _)))))

/-- C10: a file named exactly `.md` passes the extension filter, its derived
title is the empty string, and in a run with valid credentials a POST is
issued for it whose payload title is the empty string. -/
theorem C10_bare_md_file (uR kR content : String) (net : FetchInput)
    (hu : stripTrailingSlash (jsTrim uR) ≠ "") (hk : jsTrim kR ≠ "") :
    jsEndsWithMd ".md" = true ∧
    getFileNameWithoutExtension ".md" = "" ∧
    (mkPayload "" content).title = "" ∧
    Event.netRequest (stripTrailingSlash (jsTrim uR) ++ "/bookmarks") "POST"
        (some (mkPayload "" content)) ∈
      (startImportProcess uR kR [⟨".md", .ok content, net⟩] .none).events := by
  refine ⟨rfl, rfl, rfl, ?_⟩
  rw [startImport_valid_eq .none (validation_cond_false hu hk (by simp))]
  simp only [List.mem_append]
  refine Or.inl (Or.inl (Or.inr ?_))
  simp only [List.length_singleton]
  have hstep :
      (runLoop (stripTrailingSlash (jsTrim uR)) (jsTrim kR) 1 .none
        [⟨".md", .ok content, net⟩] 0).2.2.1 =
      (processFile (stripTrailingSlash (jsTrim uR)) (jsTrim kR) 1 1
        ⟨".md", .ok content, net⟩).2 ++ [] := rfl
  rw [hstep, List.append_nil]
  exact netreq_mem_processFile _ _ 1 1 ⟨".md", .ok content, net⟩ content rfl rfl

/-- C10 witness: the conclusion at a concrete run. -/
theorem C10_bare_md_file_witness :
    jsEndsWithMd ".md" = true ∧
    getFileNameWithoutExtension ".md" = "" ∧
    (mkPayload "" "some text").title = "" ∧
    Event.netRequest ("http://h/api/v1" ++ "/bookmarks") "POST"
        (some (mkPayload "" "some text")) ∈
      (startImportProcess "http://h/api/v1" "key"
        [⟨".md", .ok "some text", .netError "conn"⟩] .none).events :=
  C10_bare_md_file "http://h/api/v1" "key" "some text" (.netError "conn")
    (by decide) (by decide)

/-! ## Classification of log lines for the read-error count (C6) -/

theorem readErr_false_of_head (n m : String) (b : Bool) (c : Char) (cs : List Char)
    (hm : m.data = c :: cs) (hc : ('E' == c) = false) :
    isReadErrorFor n (Event.log m b) = false := by
  cases b with
  | false => rfl
  | true =>
    show jsStartsWith m ("Error processing file \"" ++ n ++ "\":") = false
    unfold jsStartsWith
    have hp : ("Error processing file \"" ++ n ++ "\":").data =
        'E' :: (("rror processing file \"".data ++ n.data) ++ "\":".data) := rfl
    rw [hp, hm, List.isPrefixOf_cons₂, hc]
    rfl

theorem readErr_false_ER (n m : String) (b : Bool) (cs : List Char)
    (hm : m.data = 'E' :: 'R' :: cs) :
    isReadErrorFor n (Event.log m b) = false := by
  cases b with
  | false => rfl
  | true =>
    show jsStartsWith m ("Error processing file \"" ++ n ++ "\":") = false
    unfold jsStartsWith
    have hp : ("Error processing file \"" ++ n ++ "\":").data =
        'E' :: 'r' :: (("ror processing file \"".data ++ n.data) ++ "\":".data) := rfl
    rw [hp, hm, List.isPrefixOf_cons₂, List.isPrefixOf_cons₂,
      show (('r' : Char) == 'R') = false from rfl]
    simp

theorem readErr_true_self (n msg : String) :
    isReadErrorFor n
      (Event.log ("Error processing file \"" ++ n ++ "\": " ++ msg) true) = true := by
  show jsStartsWith _ _ = true
  unfold jsStartsWith
  have h1 : ("Error processing file \"" ++ n ++ "\":").data =
      ("Error processing file \"".data ++ n.data) ++ ['"', ':'] := rfl
  have h2 : ("Error processing file \"" ++ n ++ "\": " ++ msg).data =
      (("Error processing file \"".data ++ n.data) ++ ['"', ':', ' ']) ++ msg.data := rfl
  rw [h1, h2]
  have h3 : ((("Error processing file \"".data ++ n.data) ++ ['"', ':', ' ']) ++ msg.data)
      = (("Error processing file \"".data ++ n.data) ++ ['"', ':']) ++ (' ' :: msg.data) := by
    simp
  rw [h3]
  exact isPrefixOf_self_append _ _

theorem fetchRespond_no_readErr (n url m : String) (r : HttpResponse) :
    ∀ e ∈ (fetchRespond url m r).2, isReadErrorFor n e = false := by
  intro e he
  unfold fetchRespond at he
  split at he
  · simp at he; subst he; exact readErr_false_of_head n _ _ 'A' _ rfl rfl
  · split at he
    · simp at he; subst he; rfl
    · split at he
      · simp at he; subst he; rfl
      · simp at he

theorem createResultAndLog_no_readErr (n t : String) (fr : FetchResult) :
    ∀ e ∈ (createResultAndLog t fr).2, isReadErrorFor n e = false := by
  intro e he
  unfold createResultAndLog at he
  split at he
  · simp at he; subst he; exact readErr_false_of_head n _ _ 'A' _ rfl rfl
  · split at he
    · simp at he; subst he; exact readErr_false_ER n _ _ _ rfl
    · simp at he; subst he; rfl

theorem fetch_no_readErr (n url m k : String) (b : Option Payload) (input : FetchInput) :
    ∀ e ∈ (fetchKarakeep url m k b input).2, isReadErrorFor n e = false := by
  intro e he
  cases input with
  | netError msg =>
    simp only [fetchKarakeep, List.mem_cons, List.not_mem_nil, or_false] at he
    rcases he with rfl | rfl | rfl
    · rfl
    · rfl
    · exact readErr_false_of_head n _ _ 'F' _ rfl rfl
  | resp r =>
    simp only [fetchKarakeep, List.cons_append, List.nil_append, List.mem_cons,
      List.mem_append] at he
    rcases he with rfl | rfl | he | he
    · rfl
    · rfl
    · exact fetchRespond_no_readErr n url m r e he
    · revert he
      split
      · intro he
        simp only [List.mem_cons, List.not_mem_nil, or_false] at he
        subst he
        exact readErr_false_of_head n _ _ 'F' _ rfl rfl
      · intro he; simp at he

theorem create_no_readErr (n u k t c : String) (input : FetchInput) :
    ∀ e ∈ (createRootItemInKarakeep u k t c input).2, isReadErrorFor n e = false := by
  intro e he
  simp only [createRootItemInKarakeep, List.cons_append, List.nil_append,
    List.mem_cons, List.mem_append] at he
  rcases he with rfl | he | he
  · rfl
  · exact fetch_no_readErr n _ _ _ _ _ e he
  · exact createResultAndLog_no_readErr n _ _ e he

theorem processFile_no_readErr_okRead (n u k : String) (i N : Nat) (f : FileEntry)
    (cc : String) (hmd : jsEndsWithMd f.name = true) (hr : f.readResult = .ok cc) :
    ∀ e ∈ (processFile u k i N f).2, isReadErrorFor n e = false := by
  intro e he
  unfold processFile at he
  rw [hmd, hr] at he
  simp only [Bool.not_true, Bool.false_eq_true, if_false, List.cons_append,
    List.nil_append, List.mem_cons, List.mem_append] at he
  rcases he with rfl | rfl | rfl | (he | he) | (rfl | he)
  · rfl
  · rfl
  · rfl
  · exact create_no_readErr n _ _ _ _ _ e he
  · revert he
    split
    · intro he; simp at he
    · intro he
      simp only [List.mem_cons, List.not_mem_nil, or_false] at he
      subst he
      exact readErr_false_of_head n _ _ 'F' _ rfl rfl
  · rfl
  · simp at he

theorem processFile_no_readErr_skip (n u k : String) (i N : Nat) (f : FileEntry)
    (hmd : jsEndsWithMd f.name = false) :
    ∀ e ∈ (processFile u k i N f).2, isReadErrorFor n e = false := by
  intro e he
  rw [processFile_skip_eq u k i N f hmd] at he
  simp only [List.mem_cons, List.not_mem_nil, or_false] at he
  rcases he with rfl | rfl
  · rfl
  · exact readErr_false_of_head n _ _ 'S' _ rfl rfl

theorem isReadErrorFor_log_false_flag (n m : String) :
    isReadErrorFor n (Event.log m false) = false := rfl

theorem isReadErrorFor_readAttempt (n s : String) :
    isReadErrorFor n (Event.readAttempt s) = false := rfl

theorem isReadErrorFor_sleep (n : String) (ms : Nat) :
    isReadErrorFor n (Event.sleep ms) = false := rfl

theorem processFile_countP_readErr_self (u k : String) (i N : Nat) (f : FileEntry)
    (msg : String) (hmd : jsEndsWithMd f.name = true)
    (hr : f.readResult = .error msg) :
    List.countP (isReadErrorFor f.name) (processFile u k i N f).2 = 1 := by
  unfold processFile
  rw [hmd, hr]
  simp only [Bool.not_true, Bool.false_eq_true, if_false, List.countP_cons,
    List.countP_nil, readErr_true_self f.name msg, isReadErrorFor_log_false_flag,
    isReadErrorFor_readAttempt, isReadErrorFor_sleep]
  simp

/-! ## Per-file success increments -/

theorem processFile_fst_ok (u k : String) (i N : Nat) (f : FileEntry) (cc : String)
    (hmd : jsEndsWithMd f.name = true) (hr : f.readResult = .ok cc) :
    (processFile u k i N f).1 =
      if createSucceedsOn f.netOutcome = true then 1 else 0 := by
  unfold processFile
  rw [hmd, hr]
  simp only [Bool.not_true, Bool.false_eq_true, if_false]
  rw [createRootItem_fst]

theorem processFile_fst_readErr (u k : String) (i N : Nat) (f : FileEntry)
    (msg : String) (hmd : jsEndsWithMd f.name = true)
    (hr : f.readResult = .error msg) :
    (processFile u k i N f).1 = 0 := by
  unfold processFile
  rw [hmd, hr]
  simp

/-! ## C6: a three-file batch whose second file fails to read -/

/-- C6: in a batch of three `.md` files where reading file #2 fails and files
#1 and #3 are created successfully on the remote side, the run reaches its
end: the processed count is 3, the succeeded count is 2, exactly one
read-error log line references the name of file #2, and the trace still ends
with the summary block. -/
theorem C6_read_failure_does_not_abort (uR kR : String) (f1 f2 f3 : FileEntry)
    (c1 c3 msg : String)
    (hu : stripTrailingSlash (jsTrim uR) ≠ "") (hk : jsTrim kR ≠ "")
    (h1md : jsEndsWithMd f1.name = true) (h2md : jsEndsWithMd f2.name = true)
    (h3md : jsEndsWithMd f3.name = true)
    (h1r : f1.readResult = .ok c1) (h2r : f2.readResult = .error msg)
    (h3r : f3.readResult = .ok c3)
    (h1s : createSucceedsOn f1.netOutcome = true)
    (h3s : createSucceedsOn f3.netOutcome = true) :
    (startImportProcess uR kR [f1, f2, f3] .none).processed = 3 ∧
    (startImportProcess uR kR [f1, f2, f3] .none).succeeded = 2 ∧
    List.countP (isReadErrorFor f2.name)
      (startImportProcess uR kR [f1, f2, f3] .none).events = 1 ∧
    ∃ evs, (startImportProcess uR kR [f1, f2, f3] .none).events =
      evs ++ summaryEvents 3 3 2 := by
  rw [startImport_valid_eq .none (validation_cond_false hu hk (by simp))]
  have hlen : ([f1, f2, f3] : List FileEntry).length = 3 := rfl
  simp only [hlen]
  set u' := stripTrailingSlash (jsTrim uR) with hu'
  set k' := jsTrim kR with hk'
  have hproc : (runLoop u' k' 3 .none [f1, f2, f3] 0).1 = 3 :=
    runLoop_none_processed u' k' 3 [f1, f2, f3] 0
  have herr : (runLoop u' k' 3 .none [f1, f2, f3] 0).2.2.2 = Option.none :=
    runLoop_none_err u' k' 3 [f1, f2, f3] 0
  have hsucc : (runLoop u' k' 3 .none [f1, f2, f3] 0).2.1 = 2 := by
    show (processFile u' k' 1 3 f1).1 +
      ((processFile u' k' 2 3 f2).1 + ((processFile u' k' 3 3 f3).1 + 0)) = 2
    rw [processFile_fst_ok u' k' 1 3 f1 c1 h1md h1r, if_pos h1s,
      processFile_fst_readErr u' k' 2 3 f2 msg h2md h2r,
      processFile_fst_ok u' k' 3 3 f3 c3 h3md h3r, if_pos h3s]
  have hloopE : (runLoop u' k' 3 .none [f1, f2, f3] 0).2.2.1 =
      (processFile u' k' 1 3 f1).2 ++
        ((processFile u' k' 2 3 f2).2 ++ ((processFile u' k' 3 3 f3).2 ++ [])) := rfl
  refine ⟨hproc, hsucc, ?_, ?_⟩
  · show List.countP (isReadErrorFor f2.name) (_ ++ _ ++ _ ++ _ ++ _ ++ _) = 1
    rw [hloopE, herr]
    simp only [List.countP_append]
    have hpre : List.countP (isReadErrorFor f2.name) preEvents = 0 := rfl
    have hwarn : List.countP (isReadErrorFor f2.name) (warnEvents u') = 0 := by
      unfold warnEvents
      split
      · simp [List.countP_cons, readErr_false_of_head f2.name _ _ 'W' _ rfl rfl]
      · rfl
    have hbanner : List.countP (isReadErrorFor f2.name)
        [Event.log ("\n--- Processing " ++ toString 3 ++ " Markdown file(s) ---") false] = 0 := rfl
    have hc1 : List.countP (isReadErrorFor f2.name) (processFile u' k' 1 3 f1).2 = 0 :=
      List.countP_eq_zero.mpr fun e he => by
        simp [processFile_no_readErr_okRead f2.name u' k' 1 3 f1 c1 h1md h1r e he]
    have hc2 : List.countP (isReadErrorFor f2.name) (processFile u' k' 2 3 f2).2 = 1 :=
      processFile_countP_readErr_self u' k' 2 3 f2 msg h2md h2r
    have hc3 : List.countP (isReadErrorFor f2.name) (processFile u' k' 3 3 f3).2 = 0 :=
      List.countP_eq_zero.mpr fun e he => by
        simp [processFile_no_readErr_okRead f2.name u' k' 3 3 f3 c3 h3md h3r e he]
    have hcatch : List.countP (isReadErrorFor f2.name) (catchEvents Option.none) = 0 := rfl
    have hsum : List.countP (isReadErrorFor f2.name) (summaryEvents 3 3 2) = 0 := rfl
    rw [hpre, hwarn, hbanner, hc1, hc2, hc3, hcatch]
    simp [summaryEvents, List.countP_cons, isReadErrorFor_log_false_flag]
  · rw [herr, hproc, hsucc]
    exact ⟨_, rfl⟩

/-- C6 witness: the conclusion at a concrete three-file batch. -/
theorem C6_read_failure_does_not_abort_witness :
    (startImportProcess "http://h/api/v1" "key"
      [⟨"a.md", .ok "one",
        .resp { status := 201, statusText := "Created", contentLengthZero := false,
                bodyText := some "b", jsonBody := .ok (.obj (.cons "id" (.num 7) .nil)) }⟩,
       ⟨"b.md", .error "could not be read", .netError "unused"⟩,
       ⟨"c.md", .ok "three",
        .resp { status := 200, statusText := "OK", contentLengthZero := false,
                bodyText := some "b", jsonBody := .ok (.obj (.cons "id" (.str "x9") .nil)) }⟩]
      .none).processed = 3 ∧
    (startImportProcess "http://h/api/v1" "key"
      [⟨"a.md", .ok "one",
        .resp { status := 201, statusText := "Created", contentLengthZero := false,
                bodyText := some "b", jsonBody := .ok (.obj (.cons "id" (.num 7) .nil)) }⟩,
       ⟨"b.md", .error "could not be read", .netError "unused"⟩,
       ⟨"c.md", .ok "three",
        .resp { status := 200, statusText := "OK", contentLengthZero := false,
                bodyText := some "b", jsonBody := .ok (.obj (.cons "id" (.str "x9") .nil)) }⟩]
      .none).succeeded = 2 ∧
    List.countP (isReadErrorFor "b.md")
      (startImportProcess "http://h/api/v1" "key"
        [⟨"a.md", .ok "one",
          .resp { status := 201, statusText := "Created", contentLengthZero := false,
                  bodyText := some "b", jsonBody := .ok (.obj (.cons "id" (.num 7) .nil)) }⟩,
         ⟨"b.md", .error "could not be read", .netError "unused"⟩,
         ⟨"c.md", .ok "three",
          .resp { status := 200, statusText := "OK", contentLengthZero := false,
                  bodyText := some "b", jsonBody := .ok (.obj (.cons "id" (.str "x9") .nil)) }⟩]
        .none).events = 1 ∧
    ∃ evs, (startImportProcess "http://h/api/v1" "key"
        [⟨"a.md", .ok "one",
          .resp { status := 201, statusText := "Created", contentLengthZero := false,
                  bodyText := some "b", jsonBody := .ok (.obj (.cons "id" (.num 7) .nil)) }⟩,
         ⟨"b.md", .error "could not be read", .netError "unused"⟩,
         ⟨"c.md", .ok "three",
          .resp { status := 200, statusText := "OK", contentLengthZero := false,
                  bodyText := some "b", jsonBody := .ok (.obj (.cons "id" (.str "x9") .nil)) }⟩]
        .none).events = evs ++ summaryEvents 3 3 2 :=
  C6_read_failure_does_not_abort "http://h/api/v1" "key" _ _ _ "one" "three"
    "could not be read" (by decide) (by decide) rfl rfl rfl rfl rfl rfl rfl rfl

end KarakeepImporter
